import Mathlib

/-!
Verification development for the gwaihir repository (an interactive
Jupyter front-end for BCDI preprocessing and 3D visualization).

The file shallowly embeds the parts of `gwaihir/controller/control_preprocess.py`
and `gwaihir/plot.py` that the specification talks about:

* `create_yaml_file` (config writer) and the `key: value` config line format;
* the CSV upsert performed at the end of `extract_metadata`;
* the `SIXS_2019` beamline guard of `extract_metadata`;
* `Plotter.get_data_array` (data loader) with its per-extension branches;
* `ThreeDViewer.on_update_plot` (clip plane, slider bound update, mesh
  recompute failure policy).

Python floats are embedded as exact rationals, Python ints as `Int`,
numpy index arithmetic as `Nat`.  External library calls (the config
parser, the range-slider widget, `marching_cubes`) are not repository
code; where a claim needs them they are modelled from the specification,
as stated in the corresponding doc comments.
-/

/-! ## Decimal rendering of integers (Python `str` of an `int`) -/

/-- The character of a decimal digit `d < 10` (offset from `'0'`, code 48). -/
def digitChar (d : Nat) : Char := Char.ofNat (48 + d)

/-- Numeric value of a digit character. -/
def digitVal (c : Char) : Nat := c.toNat - 48

/-- Fuel-driven decimal rendering of a natural number (most significant digit
first), structurally recursive so that the kernel can evaluate it. -/
def natReprAux : Nat → Nat → List Char
| 0, _ => []
| fuel + 1, n =>
  if n < 10 then [digitChar n]
  else natReprAux fuel (n / 10) ++ [digitChar (n % 10)]

/-- Decimal digits of a natural number, as Python's `str` renders it. -/
def natRepr (n : Nat) : List Char := natReprAux (n + 1) n

/-- Python's `str` of an `int`: optional minus sign followed by digits. -/
def pyIntRepr (z : Int) : List Char :=
  if z < 0 then '-' :: natRepr z.natAbs else natRepr z.natAbs

/-- Rendering of the elements of a Python list of ints, separated by
a comma and a space, exactly as Python's `str` of a list renders them. -/
def elemsRepr : List Int → List Char
| [] => []
| [z] => pyIntRepr z
| z :: l => pyIntRepr z ++ ',' :: ' ' :: elemsRepr l

/-- Python's `str` of a list of ints: bracketed comma-space separated digits. -/
def pyListRepr (l : List Int) : List Char := '[' :: (elemsRepr l ++ [']'])

/-! ## Python values handed to `create_yaml_file` -/

/-- A numpy numeric array of integer dtype, of rank one or two, as can be
passed among the kwargs of `create_yaml_file`. -/
inductive NpArr where
| one (l : List Int)
| two (ll : List (List Int))
deriving DecidableEq

/-- The value domain the embedding covers for `create_yaml_file` kwargs:
strings, tuples and lists of ints, numpy integer arrays, int, bool and
None scalars. -/
inductive PyVal where
| str (s : String)
| tup (l : List Int)
| npArr (a : NpArr)
| list (l : List Int)
| int (z : Int)
| bool (b : Bool)
| pynone
deriving DecidableEq

/-- Characters of the word None. -/
def noneChars : List Char := ['N', 'o', 'n', 'e']

/-- Characters of the word True. -/
def trueChars : List Char := ['T', 'r', 'u', 'e']

/-- Characters of the word False. -/
def falseChars : List Char := ['F', 'a', 'l', 's', 'e']

/-- numpy's `repr` of a rank-one integer sub-array, as it appears when a
rank-two array is converted with `list(...)` and rendered inside an
f-string: `array(` followed by the list literal and `)`. -/
def npSubRepr (l : List Int) : List Char :=
  ['a', 'r', 'r', 'a', 'y', '('] ++ pyListRepr l ++ [')']

/-- Rendering of `list(v)` for a rank-two array `v`: the sub-array reprs,
comma-space separated. -/
def subarraysRepr : List (List Int) → List Char
| [] => []
| [l] => npSubRepr l
| l :: ls => npSubRepr l ++ ',' :: ' ' :: subarraysRepr ls

/-- Rendering of `list(v)` for a numpy array `v` inside an f-string:
a rank-one array yields a flat list literal of its scalars, a rank-two
array yields a bracketed list of `array([...])` sub-array reprs. -/
def npReprChars : NpArr → List Char
| .one l => pyListRepr l
| .two ll => '[' :: (subarraysRepr ll ++ [']'])

/-- The value part of the config line produced by `create_yaml_file` for one
kwarg, following the isinstance chain of the source: a `str` is quoted; a
non-empty `tuple` is rendered as `list(v)` and an empty one as `None`; an
`np.ndarray` is rendered as `list(v)`; a non-empty `list` is rendered
directly and an empty one as `None`; any other value with Python's `str`. -/
def formatValueChars : PyVal → List Char
| .str s => '"' :: (s.data ++ ['"'])
| .tup [] => noneChars
| .tup l => pyListRepr l
| .npArr a => npReprChars a
| .list [] => noneChars
| .list l => pyListRepr l
| .int z => pyIntRepr z
| .bool true => trueChars
| .bool false => falseChars
| .pynone => noneChars

/-- One config line `key: value` appended by `create_yaml_file`. -/
def formatLine (k : String) (v : PyVal) : String :=
  String.mk (k.data ++ ':' :: ' ' :: formatValueChars v)

/-- Outcome of `create_yaml_file` when the destination extension is wrong:
the source executes `raise FileError(...)`, but `FileError` is not defined
anywhere in the module nor imported, so Python actually raises a `NameError`
at that line.  This constructor embeds that raised error. -/
inductive CreateYamlErr where
| nameErrorFileError
deriving DecidableEq

/-- Suffix test on strings, by character lists. -/
def strEndsWith (s suf : String) : Bool := List.isSuffixOf suf.data s.data

/-- `create_yaml_file`: builds one `key: value` line per kwarg, then writes
them only when the destination ends in `.yaml` or `.yml`; otherwise the
`raise FileError(...)` line runs, which raises a `NameError` because
`FileError` is undefined (see `CreateYamlErr`), and no file is written.
An `.ok lines` result stands for the file written with those lines; an
`.error` result stands for the raised exception with nothing written.
Directory creation (a side effect tolerant of existing directories and
permission errors) is not modelled. -/
def create_yaml_file (fname : String) (kwargs : List (String × PyVal)) :
    Except CreateYamlErr (List String) :=
  let config_file := kwargs.map (fun kv => formatLine kv.1 kv.2)
  if strEndsWith fname ".yaml" || strEndsWith fname ".yml" then
    .ok config_file
  else
    .error .nameErrorFileError

/-! ## Re-parsing a config line

Modelled from the spec: the configuration-file parser is an external
collaborator (out of scope, unchanged); the spec describes the format as
one `key: value` pair per line with values rendered as Python-literal-like
tokens — quoted strings, bracketed lists, bare tokens for numbers and
booleans, the literal word `None` for empty collections.  The parser below
reads exactly that grammar. -/

/-- Result domain of the config parser: the structured value a line's value
token parses to. -/
inductive ParsedVal where
| pstr (s : String)
| plist (l : List Int)
| pint (z : Int)
| pbool (b : Bool)
| pnone
deriving DecidableEq

/-- Longest leading run of characters satisfying `p`, with the rest. -/
def spanChars (p : Char → Bool) : List Char → List Char × List Char
| [] => ([], [])
| c :: cs =>
  if p c then
    let r := spanChars p cs
    (c :: r.1, r.2)
  else ([], c :: cs)

/-- Numeric value of a digit string (left fold over digits). -/
def parseNatVal (cs : List Char) : Nat :=
  cs.foldl (fun a c => 10 * a + digitVal c) 0

/-- Consume a signed decimal integer token; returns the value and the rest. -/
def takeInt (cs : List Char) : Option (Int × List Char) :=
  match cs with
  | [] => none
  | c :: rest =>
    if c = '-' then
      match spanChars Char.isDigit rest with
      | ([], _) => none
      | (ds, r) => some (-(parseNatVal ds : Int), r)
    else
      match spanChars Char.isDigit (c :: rest) with
      | ([], _) => none
      | (ds, r) => some ((parseNatVal ds : Int), r)

/-- Fuel-driven parser for the elements of a bracketed integer list, after
the opening bracket: integers separated by comma-space, closed by `]`. -/
def parseElemsAux : Nat → List Char → Option (List Int)
| 0, _ => none
| fuel + 1, cs =>
  match takeInt cs with
  | none => none
  | some (z, rest) =>
    if rest = [']'] then some [z]
    else
      match rest with
      | c1 :: c2 :: more =>
        if c1 = ',' ∧ c2 = ' ' then
          match parseElemsAux fuel more with
          | some t => some (z :: t)
          | none => none
        else none
      | _ => none

/-- Parser for a bracketed integer list token. -/
def parseIntList (cs : List Char) : Option (List Int) :=
  match cs with
  | [] => none
  | c :: rest =>
    if c = '[' then
      if rest = [']'] then some []
      else parseElemsAux rest.length rest
    else none

/-- Parser for one value token of a config line: a quoted string, a
bracketed integer list, the bare words None, True, False, or a bare
integer consuming the whole token. -/
def parseValue (cs : List Char) : Option ParsedVal :=
  match cs with
  | [] => none
  | c :: rest =>
    if c = '"' then
      match spanChars (fun x => x != '"') rest with
      | (content, cl) =>
        if cl = ['"'] then some (.pstr (String.mk content)) else none
    else if c = '[' then
      match parseIntList (c :: rest) with
      | some l => some (.plist l)
      | none => none
    else if c :: rest = noneChars then some .pnone
    else if c :: rest = trueChars then some (.pbool true)
    else if c :: rest = falseChars then some (.pbool false)
    else
      match takeInt (c :: rest) with
      | some (z, []) => some (.pint z)
      | _ => none

/-- Split a line at the first colon, requiring a following space: yields the
key characters and the value characters. -/
def splitColonSpace : List Char → Option (List Char × List Char)
| [] => none
| c :: rest =>
  if c = ':' then
    match rest with
    | [] => none
    | c2 :: v => if c2 = ' ' then some ([], v) else none
  else
    match splitColonSpace rest with
    | some kv => some (c :: kv.1, kv.2)
    | none => none

/-- Parse one `key: value` config line into the key and its parsed value. -/
def parseLine (s : String) : Option (String × ParsedVal) :=
  match splitColonSpace s.data with
  | some kv =>
    match parseValue kv.2 with
    | some p => some (String.mk kv.1, p)
    | none => none
  | none => none

/-- The value a supported config value is expected to re-parse to: lists,
tuples and rank-one arrays all come back as plain lists (the list/tuple
distinction is intentionally lost). -/
def expectedParse : PyVal → ParsedVal
| .str s => .pstr s
| .tup [] => .pnone
| .tup l => .plist l
| .npArr (.one l) => .plist l
| .npArr (.two _) => .pnone
| .list [] => .pnone
| .list l => .plist l
| .int z => .pint z
| .bool b => .pbool b
| .pynone => .pnone

/-- The values for which the write-then-reparse round trip is claimed:
strings without an embedded double quote, non-empty int lists and tuples,
rank-one integer arrays, int, bool and None scalars. -/
def SupportedRTB : PyVal → Bool
| .str s => s.data.all (fun c => c != '"')
| .tup l => !l.isEmpty
| .npArr (.one _) => true
| .npArr (.two _) => false
| .list l => !l.isEmpty
| .int _ => true
| .bool _ => true
| .pynone => true

/-! ## The data loader `Plotter.get_data_array` (src/gwaihir/plot.py) -/

/-- A numpy n-dimensional array: a shape (list of axis extents) together
with the element at each multi-index. -/
structure NDArray where
  shape : List Nat
  get : List Nat → ℚ

/-- Indexing into the leading axis with index 0 (the `self.data_array[0]`
collapse applied to 4D `.h5` results): drops the leading axis. -/
def index_axis0 (a : NDArray) : NDArray :=
  ⟨a.shape.tail, fun idx => a.get (0 :: idx)⟩

/-- Transposition of the first and third coordinates of a multi-index. -/
def swap02 : List Nat → List Nat
| a :: b :: c :: t => c :: b :: a :: t
| l => l

/-- `np.swapaxes(..., 0, 2)`: swaps the extents of axes 0 and 2 and reads
each element at the correspondingly swapped multi-index. -/
def swapaxes02 (a : NDArray) : NDArray :=
  ⟨swap02 a.shape, fun idx => a.get (swap02 idx)⟩

/-- The `.h5` branch's transform of the dataset read from
`entry_1/data_1/data`: a 4D array is first collapsed with `[0]`, then
`np.swapaxes(..., 0, 2)` is applied unconditionally. -/
def h5_transform (a : NDArray) : NDArray :=
  swapaxes02 (if a.shape.length = 4 then index_axis0 a else a)

/-- The file extensions `get_data_array` dispatches on. -/
inductive FileExt where
| npy
| cxi
| h5
| npz
| other
deriving DecidableEq

/-- An exception propagating out of `get_data_array`:
`attributeErrorDataArray` is the `AttributeError` raised when, after a
caught load failure, the plot/summary code reads `self.data_array` and the
attribute was never bound; `reraisedLoadError` is the load exception the
`.npz` branch re-raises (`except Exception as E: raise E`). -/
inductive LoaderErr where
| attributeErrorDataArray
| reraisedLoadError
deriving DecidableEq

/-- Message printed when the `.npy` load fails. -/
def msg_npy_fail : String := "Could not load data ... "

/-- Message printed when the `.cxi` or `.h5` load fails (condensed to one
line from the source's multi-line text). -/
def msg_hdf5_fail : String :=
  "The file could not be loaded, verify that you are loading a file with an hdf5 architecture and that the file exists."

/-- Message standing for the summary block printed after a successful
dispatch (file name, number of dimensions, shape). -/
def msg_loaded : String := "Loaded data array"

/-- `Plotter.get_data_array`, covering the `plot=False` dispatch (the
summary print path).  `load` is the outcome of the raw read of the file
(`np.load` / `h5.File(...)[...]`), `prior` the value of `self.data_array`
before the call (`none` when the attribute was never bound, as in a fresh
`Plotter`).  Returns the printed messages and either a propagated
exception or the final bound array:

* `.npy`: a load failure is caught and a message printed, after which the
  summary code reads `self.data_array` — an `AttributeError` when unbound;
* `.cxi`: same with the hdf5 message, no transform on success;
* `.h5`: same, with `h5_transform` applied on success;
* `.npz`: on failure the `except` block re-raises the load exception; on
  success the `interact` widget immediately binds the first member array;
* any other extension: no branch runs. -/
def get_data_array (ext : FileExt) (load : Except Unit NDArray)
    (prior : Option NDArray) : List String × Except LoaderErr (Option NDArray) :=
  match ext with
  | .npy =>
    match load with
    | .ok a => ([msg_loaded], .ok (some a))
    | .error _ =>
      match prior with
      | none => ([msg_npy_fail], .error .attributeErrorDataArray)
      | some a => ([msg_npy_fail, msg_loaded], .ok (some a))
  | .cxi =>
    match load with
    | .ok a => ([msg_loaded], .ok (some a))
    | .error _ =>
      match prior with
      | none => ([msg_hdf5_fail], .error .attributeErrorDataArray)
      | some a => ([msg_hdf5_fail, msg_loaded], .ok (some a))
  | .h5 =>
    match load with
    | .ok a => ([msg_loaded], .ok (some (h5_transform a)))
    | .error _ =>
      match prior with
      | none => ([msg_hdf5_fail], .error .attributeErrorDataArray)
      | some a => ([msg_hdf5_fail, msg_loaded], .ok (some a))
  | .npz =>
    match load with
    | .ok a => ([msg_loaded], .ok (some a))
    | .error _ => ([], .error .reraisedLoadError)
  | .other => ([], .ok prior)

/-! ## The CSV upsert of `extract_metadata` (control_preprocess.py) -/

/-- One row of the metadata CSV log: the scan number key and the metadata
column values (qx, qy, qz, q_norm, d_hkl, inplane_angle,
out_of_plane_angle, bragg_peak, plus optional columns). -/
structure MetaRow where
  scan : Int
  cols : List ℚ
deriving DecidableEq

/-- The CSV update at the end of `extract_metadata` when the log loads:
drop every row whose `scan` equals the new row's key
(`df.drop(df[df['scan'] == scan_nb].index)`), then append the new row
(`pd.concat([df, temp_df])`). -/
def upsert_metadata (log : List MetaRow) (row : MetaRow) : List MetaRow :=
  (log.filter (fun r => r.scan != row.scan)) ++ [row]

/-- The whole try/except around the CSV save: on a readable log the upsert
runs; when the log is missing or malformed a fresh log holding only the
new row is written at the default path. -/
def save_metadata_csv (existing : Option (List MetaRow)) (row : MetaRow) :
    List MetaRow :=
  match existing with
  | some log => upsert_metadata log row
  | none => [row]

/-! ## The `SIXS_2019` beamline guard of `extract_metadata` -/

/-- A Python string object: its character content together with its object
identity (`id`).  Distinct objects may hold equal content. -/
structure PyStrObj where
  str : String
  objId : Nat
deriving DecidableEq

/-- The module's literal `"SIXS_2019"` as a Python object (identity 0). -/
def sixs_2019_literal : PyStrObj := ⟨"SIXS_2019", 0⟩

/-- Python's `is` operator on strings: object identity, not content. -/
def py_is (a b : PyStrObj) : Bool := a.objId == b.objId

/-- The guard the source uses to decide whether the secondary SixS
extraction (motor positions, integration time, step count) runs:
`gwaihir_dataset.beamline is "SIXS_2019"`. -/
def sixs_secondary_check (beamline : PyStrObj) : Bool :=
  py_is beamline sixs_2019_literal

/-- The guard the claim (and the spec's stated intent) requires: string
equality with `"SIXS_2019"`. -/
def sixs_secondary_check_eq (beamline : PyStrObj) : Bool :=
  beamline.str == "SIXS_2019"

/-! ## The 3D viewer `ThreeDViewer.on_update_plot` (src/gwaihir/plot.py)

The volume `self.d` is embedded as a nested list indexed `(z, y, x)`,
holding the magnitudes relevant to the clip computation as exact
rationals.  The code computes `u = np.sqrt(ux**2 + uy**2 + uz**2)`;
square roots are irrational in general, so the embedding takes the norm
value `u` as an explicit parameter, and the theorems about it carry the
defining hypotheses `0 ≤ u` and `u ^ 2 = ux ^ 2 + uy ^ 2 + uz ^ 2`. -/

/-- A 3D volume indexed `(z, y, x)`. -/
abbrev Volume : Type := List (List (List ℚ))

/-- numpy's default absolute tolerance, the bound at which
`np.isclose(u, 0)` holds for the nonnegative norm `u`. -/
def np_atol : ℚ := 1 / 100000000

/-- The zero-norm guard at the top of the clip computation: when
`np.isclose(u, 0)` the code substitutes `ux = 1` and `u = 1` (leaving
`uy`, `uz` untouched); otherwise `ux` and `u` pass through. Returns the
`(ux, u)` pair actually used in every subsequent division. -/
def clip_u_fix (ux u : ℚ) : ℚ × ℚ :=
  if |u| ≤ np_atol then (1, 1) else (ux, u)

/-- The voxels selected by
`np.where(abs(self.d) >= self.threshold.value)`: all `(z, y, x)` indices
whose magnitude is at least the threshold. -/
def voxels_above (d : Volume) (t : ℚ) : List (Nat × Nat × Nat) :=
  (List.enum d).flatMap (fun zp =>
    (List.enum zp.2).flatMap (fun yp =>
      (List.enum yp.2).flatMap (fun xp =>
        if t ≤ |xp.2| then [(zp.1, yp.1, xp.1)] else [])))

/-- Projection of one voxel index onto the clip direction:
`(x * ux + y * uy + z * uz) / u`. -/
def proj1 (ux uy uz u : ℚ) (v : Nat × Nat × Nat) : ℚ :=
  ((v.2.2 : ℚ) * ux + (v.2.1 : ℚ) * uy + (v.1 : ℚ) * uz) / u

/-- Minimum of a list of rationals (`tmp.min()`; the empty case never
reaches this function — numpy raises there, see `on_update_plot`). -/
def listMin : List ℚ → ℚ
| [] => 0
| x :: xs => xs.foldl min x

/-- Maximum of a list of rationals (`tmp.max()`). -/
def listMax : List ℚ → ℚ
| [] => 0
| x :: xs => xs.foldl max x

/-- The state of the `clipdist` FloatRangeSlider: bounds `min`/`max` and
the current value pair `(lo, hi)`. -/
structure RangeSlider where
  min : ℚ
  max : ℚ
  lo : ℚ
  hi : ℚ
deriving DecidableEq

/-- The slider's well-formedness: the value pair lies within the bounds
(so in particular `min ≤ max`). -/
def slider_inv (sl : RangeSlider) : Prop :=
  sl.min ≤ sl.lo ∧ sl.lo ≤ sl.hi ∧ sl.hi ≤ sl.max

/-- Modelled from the spec: assigning the widget's `min` trait.  The widget
library rejects a transient state with `min > max` (raises); otherwise it
clamps the current value pair into the new bounds. -/
def set_min (sl : RangeSlider) (m : ℚ) : Except Unit RangeSlider :=
  if sl.max < m then .error ()
  else .ok ⟨m, sl.max, max sl.lo m, max sl.hi m⟩

/-- Modelled from the spec: assigning the widget's `max` trait; rejects
`max < min`, clamps the value pair. -/
def set_max (sl : RangeSlider) (M : ℚ) : Except Unit RangeSlider :=
  if M < sl.min then .error ()
  else .ok ⟨sl.min, M, min sl.lo M, min sl.hi M⟩

/-- The ordered pair of bound assignments of the source:
`if tmpmax > self.clipdist.min:` assign `max` then `min`,
`else` assign `min` then `max`. -/
def update_clipdist (sl : RangeSlider) (tmpmin tmpmax : ℚ) :
    Except Unit RangeSlider :=
  if sl.min < tmpmax then
    (set_max sl tmpmax).bind (fun sl1 => set_min sl1 tmpmin)
  else
    (set_min sl tmpmin).bind (fun sl1 => set_max sl1 tmpmax)

/-- The widget-driven state of `ThreeDViewer` that `on_update_plot`
reads and writes: the cut-plane toggle, the clip normal component
sliders, the clip distance range slider, the contour threshold, and the
currently displayed mesh (abstracted by an identifier). -/
structure ViewerState where
  toggle_plane : Bool
  clipx : ℚ
  clipy : ℚ
  clipz : ℚ
  clipdist : RangeSlider
  threshold : ℚ
  mesh : Option Nat
deriving DecidableEq

/-- An exception propagating out of `on_update_plot`:
`valueErrorEmptyReduce` is numpy's ValueError from `tmp.min()` on a
zero-size selection, raised outside any try/except; `traitError` stands
for a rejected slider bound assignment. -/
inductive ViewerErr where
| valueErrorEmptyReduce
| traitError
deriving DecidableEq

/-- The projections `tmp` of the selected voxels onto the clip direction,
with the zero-norm guard applied to `(ux, u)` first. -/
def clip_projections (st : ViewerState) (d : Volume) (u : ℚ) : List ℚ :=
  (voxels_above d st.threshold).map
    (proj1 (clip_u_fix st.clipx u).1 st.clipy st.clipz (clip_u_fix st.clipx u).2)

/-- The masked magnitude volume `abs(self.d) * c` handed to
`marching_cubes` when the cut plane is enabled: each voxel keeps its
magnitude when its grid projection lies strictly inside the clip distance
interval, else 0. -/
def mask_abs (d : Volume) (ux uy uz u lo hi : ℚ) : Volume :=
  (List.enum d).map (fun zp =>
    (List.enum zp.2).map (fun yp =>
      (List.enum yp.2).map (fun xp =>
        if lo < proj1 ux uy uz u (zp.1, yp.1, xp.1) ∧
            proj1 ux uy uz u (zp.1, yp.1, xp.1) < hi then |xp.2| else 0)))

/-- The magnitude volume `abs(self.d)` handed to `marching_cubes` when
the cut plane is disabled (`c = 1`). -/
def abs_vol (d : Volume) : Volume :=
  d.map (fun p => p.map (fun r => r.map (fun q => |q|)))

/-- `ThreeDViewer.on_update_plot`, for one volume `d`, with `u` the
precomputed norm of the clip vector (see the section comment) and `mc`
the outcome of the external `marching_cubes` extraction on the volume it
is handed (`.ok` a mesh, `.error` the exception the library raises, e.g.
for a level outside the data range).

With the cut plane enabled the code (outside any try/except) selects the
voxels at or above the threshold, takes `tmp.min()` and `tmp.max()` of
their projections — numpy raises a ValueError when the selection is
empty — then updates the `clipdist` bounds in the source's order and
computes the clip mask from the (possibly clamped) slider values.  The
`marching_cubes` call and mesh replacement sit inside `try/except`: a
failure there is printed and the prior mesh kept.  UI plumbing
(unobserve/observe, disabling widgets, the plane-equation text, the
progress bar) is not modelled. -/
def on_update_plot (st : ViewerState) (d : Volume) (u : ℚ)
    (mc : Volume → Except Unit Nat) : Except ViewerErr ViewerState :=
  if st.toggle_plane then
    match voxels_above d st.threshold with
    | [] => .error .valueErrorEmptyReduce
    | _ :: _ =>
      let tmp := clip_projections st d u
      let tmpmin := listMin tmp - 1
      let tmpmax := listMax tmp + 1
      match update_clipdist st.clipdist tmpmin tmpmax with
      | .error _ => .error .traitError
      | .ok sl =>
        let masked := mask_abs d (clip_u_fix st.clipx u).1 st.clipy st.clipz
          (clip_u_fix st.clipx u).2 sl.lo sl.hi
        match mc masked with
        | .ok m => .ok { st with clipdist := sl, mesh := some m }
        | .error _ => .ok { st with clipdist := sl }
  else
    match mc (abs_vol d) with
    | .ok m => .ok { st with mesh := some m }
    | .error _ => .ok st

/-! ## Theorems -/

/-- C1: For every existing, well-formed CSV metadata log, upserting twice
with the same scan number leaves exactly one row keyed by that scan
number, holding the second call's values: the prior row with the key is
deleted before the new row is appended (replace semantics, not append),
and rows with other keys are untouched. -/
theorem extract_metadata_upsert_replace (log : List MetaRow) (r1 r2 : MetaRow)
    (h : r1.scan = r2.scan) :
    save_metadata_csv (some (save_metadata_csv (some log) r1)) r2 =
      (log.filter (fun r => r.scan != r2.scan)) ++ [r2] ∧
    (save_metadata_csv (some (save_metadata_csv (some log) r1)) r2).filter
      (fun r => r.scan == r2.scan) = [r2] := by
  constructor
  · simp only [save_metadata_csv, upsert_metadata, List.filter_append,
      List.filter_filter, h]
    simp [List.filter_cons, bne_self_eq_false, h]
  · simp only [save_metadata_csv, upsert_metadata, List.filter_append,
      List.filter_filter, h]
    have hzero : ∀ r : MetaRow, ((r.scan == r2.scan) && (r.scan != r2.scan)) =
        false := by
      intro r
      by_cases hr : r.scan = r2.scan <;> simp [hr]
    simp [hzero, List.filter_cons, bne_self_eq_false, h]

/-- Witness for C1 at a concrete log and pair of rows with the same key. -/
theorem extract_metadata_upsert_replace_witness :
    save_metadata_csv (some (save_metadata_csv (some [⟨1, [0]⟩, ⟨5, [7]⟩]) ⟨5, [1]⟩)) ⟨5, [9]⟩ =
      [⟨1, [0]⟩, ⟨5, [9]⟩] ∧
    (save_metadata_csv (some (save_metadata_csv (some [⟨1, [0]⟩, ⟨5, [7]⟩]) ⟨5, [1]⟩)) ⟨5, [9]⟩).filter
      (fun r => r.scan == (5 : Int)) = [⟨5, [9]⟩] := by
  have h := extract_metadata_upsert_replace [⟨1, [0]⟩, ⟨5, [7]⟩] ⟨5, [1]⟩ ⟨5, [9]⟩ rfl
  exact ⟨h.1.trans (by decide), h.2⟩

/-- C9: The source decides the secondary SixS extraction with
`gwaihir_dataset.beamline is "SIXS_2019"` — object identity — whereas the
claim (and the spec's stated intent) require string equality.  At a
beamline string constructed at run time, equal in content to
`"SIXS_2019"` but a distinct object (identity 1 here), the identity guard
is false while the equality guard is true: the code skips the extraction
the claim says must run. -/
theorem sixs_identity_check_divergence :
    sixs_secondary_check ⟨"SIXS_2019", 1⟩ = false ∧
    sixs_secondary_check_eq ⟨"SIXS_2019", 1⟩ = true ∧
    sixs_secondary_check sixs_2019_literal = true := by
  refine ⟨rfl, by decide, rfl⟩

/-- C4: At a destination path whose extension is neither `.yaml` nor
`.yml`, `create_yaml_file` fails — but by raising a `NameError` (the
`raise FileError(...)` line names an undefined identifier), not the
dedicated format error the claim states — and no config file is written,
while a `.yml` destination is written normally. -/
theorem create_yaml_file_bad_ext_name_error :
    create_yaml_file "config.txt" [("scans", .int 1)] =
      .error .nameErrorFileError ∧
    create_yaml_file "config.yml" [("scans", .int 1)] = .ok ["scans: 1"] := by
  refine ⟨rfl, rfl⟩

/-- C2 counterexample: in the `.npz` branch a read failure is caught and
immediately re-raised (`except Exception as E: raise E`), with no
user-facing message — the exception propagates out of the loader,
contrary to the claim. -/
theorem get_data_array_npz_raises :
    get_data_array .npz (.error ()) none = ([], .error .reraisedLoadError) := rfl

/-- C2 (amended): read failures in the `.npy`/`.cxi`/`.h5` branches are
caught at the load site and a user-facing message is printed, but an
exception still leaves the loader afterwards when no array was previously
bound — the dispatch reads the unset `data_array` attribute
(AttributeError) — while with a previously bound array the dispatch
proceeds on the stale array; in the `.npz` branch the caught read failure
is re-raised and propagates with no message. -/
theorem get_data_array_failure_paths (ext : FileExt) (prior : Option NDArray)
    (hext : ext = .npy ∨ ext = .cxi ∨ ext = .h5) :
    ((get_data_array ext (.error ()) prior).1.head? = some msg_npy_fail ∨
      (get_data_array ext (.error ()) prior).1.head? = some msg_hdf5_fail) ∧
    (prior = none →
      (get_data_array ext (.error ()) prior).2 = .error .attributeErrorDataArray) ∧
    (∀ a, prior = some a →
      (get_data_array ext (.error ()) prior).2 = .ok (some a)) ∧
    (∀ pr : Option NDArray,
      (get_data_array .npz (.error ()) pr).2 = .error .reraisedLoadError) := by
  rcases hext with h | h | h <;> subst h <;>
    cases prior <;>
      simp [get_data_array]

/-- Witness for C2's amended theorem at the `.npy` branch with no
previously bound array. -/
theorem get_data_array_failure_paths_witness :
    (get_data_array .npy (.error ()) none).2 = .error .attributeErrorDataArray ∧
    (get_data_array .npz (.error ()) (none : Option NDArray)).2 =
      .error .reraisedLoadError := by
  have h := get_data_array_failure_paths .npy none (Or.inl rfl)
  exact ⟨h.2.1 rfl, h.2.2.2 none⟩

/-- C3: a 4D array read in the `.h5` branch is collapsed to 3D by
indexing axis 0 at 0 and then axes 0 and 2 are swapped: from shape
`[n0, n1, n2, n3]` the loaded array has shape `[n3, n2, n1]` and its
element at `[i, j, k]` is the input's element at `[0, k, j, i]`; in
particular shape `[1, 2, 3, 4]` yields shape `[4, 3, 2]`. -/
theorem h5_four_dim_collapse_swap (a : NDArray) (n0 n1 n2 n3 : Nat)
    (prior : Option NDArray) (h : a.shape = [n0, n1, n2, n3]) :
    (get_data_array .h5 (.ok a) prior).2 = .ok (some (h5_transform a)) ∧
    (h5_transform a).shape = [n3, n2, n1] ∧
    ∀ i j k : Nat, (h5_transform a).get [i, j, k] = a.get [0, k, j, i] := by
  have hlen : a.shape.length = 4 := by rw [h]; rfl
  refine ⟨rfl, ?_, ?_⟩
  · simp [h5_transform, hlen, swapaxes02, index_axis0, h, swap02]
  · intro i j k
    simp [h5_transform, hlen, swapaxes02, index_axis0, swap02]

/-- Demonstration array of shape `(1, 2, 3, 4)`, each element encoding
its own multi-index in decimal. -/
def demo_array : NDArray :=
  ⟨[1, 2, 3, 4], fun idx => ((idx.foldl (fun acc i => 10 * acc + i) 0 : Nat) : ℚ)⟩

/-- Witness for C3 at the concrete shape `(1, 2, 3, 4)`, checking the
output shape `(4, 3, 2)` and one relocated element. -/
theorem h5_four_dim_collapse_swap_witness :
    (get_data_array .h5 (.ok demo_array) none).2 = .ok (some (h5_transform demo_array)) ∧
    (h5_transform demo_array).shape = [4, 3, 2] ∧
    (h5_transform demo_array).get [3, 2, 1] = demo_array.get [0, 1, 2, 3] := by
  have h := h5_four_dim_collapse_swap demo_array 1 2 3 4 none rfl
  exact ⟨h.1, h.2.1, h.2.2 3 2 1⟩

/-- When every magnitude in the volume is strictly below the threshold,
`np.where` selects no voxel. -/
lemma voxels_above_eq_nil (d : Volume) (t : ℚ)
    (h : ∀ p ∈ d, ∀ r ∈ p, ∀ x ∈ r, |x| < t) : voxels_above d t = [] := by
  unfold voxels_above
  rw [List.flatMap_eq_nil_iff]
  intro zp hz
  rw [List.flatMap_eq_nil_iff]
  intro yp hy
  rw [List.flatMap_eq_nil_iff]
  intro xp hx
  have hz2 : zp.2 ∈ d :=
    List.getElem?_mem (List.mem_enum_iff_getElem?.mp hz)
  have hy2 : yp.2 ∈ zp.2 :=
    List.getElem?_mem (List.mem_enum_iff_getElem?.mp hy)
  have hx2 : xp.2 ∈ yp.2 :=
    List.getElem?_mem (List.mem_enum_iff_getElem?.mp hx)
  have := h zp.2 hz2 yp.2 hy2 xp.2 hx2
  rw [if_neg (not_le.mpr this)]

/-- C7 counterexample: with the cut plane enabled and a threshold (2)
strictly above the volume's maximum magnitude (1), the clip-bound code —
outside any try/except — runs `tmp.min()` on the empty voxel selection
and numpy's ValueError propagates out of `on_update_plot`, contrary to
the claim that no exception ever escapes.  Clip vector (1, 0, 0) has
exact norm 1. -/
theorem on_update_plot_uncaught_empty_reduce :
    on_update_plot ⟨true, 1, 0, 0, ⟨0, 100, 0, 100⟩, 2, none⟩ [[[1]]] 1
      (fun _ => .error ()) = .error .valueErrorEmptyReduce := rfl

/-- C7 (amended): with clipping disabled, a mesh recompute never raises —
whatever the extraction step does, `on_update_plot` returns normally, and
when the extraction raises (as `marching_cubes` does for a level outside
the data range) the exception is caught, printed, and the viewer keeps
its prior state, mesh included.  With clipping enabled and every
magnitude strictly below the threshold, the clip-bound computation
raises an uncaught ValueError (empty `tmp.min()`), which propagates. -/
theorem on_update_plot_failure_policy (st : ViewerState) (d : Volume) (u : ℚ)
    (mc : Volume → Except Unit Nat) :
    (st.toggle_plane = false →
      (mc (abs_vol d) = .error () → on_update_plot st d u mc = .ok st) ∧
      (∀ m, mc (abs_vol d) = .ok m →
        on_update_plot st d u mc = .ok { st with mesh := some m })) ∧
    (st.toggle_plane = true →
      (∀ p ∈ d, ∀ r ∈ p, ∀ x ∈ r, |x| < st.threshold) →
      on_update_plot st d u mc = .error .valueErrorEmptyReduce) := by
  constructor
  · intro htog
    constructor
    · intro hmc
      simp [on_update_plot, htog, hmc]
    · intro m hmc
      simp [on_update_plot, htog, hmc]
  · intro htog hlt
    have hnil := voxels_above_eq_nil d st.threshold hlt
    simp [on_update_plot, htog, hnil]

/-- Witness for C7's amended theorem: clipping disabled, the extraction
raising, the state returned unchanged; and the enabled/empty case at the
same concrete volume. -/
theorem on_update_plot_failure_policy_witness :
    on_update_plot ⟨false, 1, 0, 0, ⟨0, 100, 0, 100⟩, 2, some 3⟩ [[[1]]] 1
      (fun _ => .error ()) = .ok ⟨false, 1, 0, 0, ⟨0, 100, 0, 100⟩, 2, some 3⟩ ∧
    on_update_plot ⟨true, 0, 1, 0, ⟨0, 100, 0, 100⟩, 2, some 3⟩ [[[1]]] 1
      (fun _ => .error ()) = .error .valueErrorEmptyReduce := by
  constructor
  · exact ((on_update_plot_failure_policy ⟨false, 1, 0, 0, ⟨0, 100, 0, 100⟩, 2, some 3⟩
      [[[1]]] 1 (fun _ => .error ())).1 rfl).1 rfl
  · exact (on_update_plot_failure_policy ⟨true, 0, 1, 0, ⟨0, 100, 0, 100⟩, 2, some 3⟩
      [[[1]]] 1 (fun _ => .error ())).2 rfl (by decide)

/-- C10: the zero-norm guard of `on_update_plot`.  With `u` the
(nonnegative) norm of the clip vector, the `(ux, u)` pair every later
division uses is `clip_u_fix ux u`: when the vector is numerically zero
(`np.isclose(u, 0)`, i.e. `|u| ≤ np_atol`) the code substitutes `ux = 1`
and `u = 1`; in every case the divisor is strictly positive, so the
divisions in `clip_projections` and the clip mask never divide by zero. -/
theorem clip_u_fix_positive_divisor (ux u : ℚ) (hu : 0 ≤ u) :
    0 < (clip_u_fix ux u).2 ∧
    (|u| ≤ np_atol → clip_u_fix ux u = (1, 1)) ∧
    (∀ st : ViewerState, ∀ d : Volume, st.clipx = ux →
      clip_projections st d u = (voxels_above d st.threshold).map
        (proj1 (clip_u_fix ux u).1 st.clipy st.clipz (clip_u_fix ux u).2)) := by
  refine ⟨?_, ?_, ?_⟩
  · unfold clip_u_fix
    split
    · norm_num
    · next h =>
      rw [abs_of_nonneg hu] at h
      have : np_atol < u := lt_of_not_le h
      have : (0 : ℚ) < np_atol := by norm_num [np_atol]
      linarith
  · intro h
    unfold clip_u_fix
    rw [if_pos h]
  · intro st d hst
    rw [clip_projections, hst]

/-- Witness for C10 at the exactly-zero clip vector `(0, 0, 0)` with norm
`u = 0`. -/
theorem clip_u_fix_positive_divisor_witness :
    0 < (clip_u_fix 5 0).2 ∧ clip_u_fix 5 0 = (1, 1) := by
  have h := clip_u_fix_positive_divisor 5 0 le_rfl
  exact ⟨h.1, h.2.1 (by norm_num [np_atol])⟩

/-- A left fold of `min` stays below a left fold of `max` started at a
larger seed. -/
lemma foldl_min_le_foldl_max (xs : List ℚ) :
    ∀ a b : ℚ, a ≤ b → xs.foldl min a ≤ xs.foldl max b := by
  induction xs with
  | nil => intro a b h; simpa using h
  | cons x t ih =>
    intro a b h
    exact ih _ _ (le_trans (min_le_left a x) (le_trans h (le_max_left b x)))

/-- The minimum of a non-empty list is at most its maximum. -/
lemma listMin_le_listMax (x : ℚ) (xs : List ℚ) :
    listMin (x :: xs) ≤ listMax (x :: xs) :=
  foldl_min_le_foldl_max xs x x le_rfl

/-- C8: whenever clipping is enabled and the clip-bound recompute runs
(the voxel selection at the current threshold is non-empty) on a
well-formed slider, the source's ordered pair of bound assignments is
accepted by the widget at both steps: writing `tmp` for the projections
of all voxels of magnitude at least the threshold onto the normalized
clip vector, either `max` is assigned `tmp.max() + 1` before `min` is
assigned `tmp.min() - 1` (when the new max exceeds the old min) or the
other way round, the slider invariant `min ≤ lo ≤ hi ≤ max` — the
current value inside the bounds — holds after each individual
assignment, and the final bounds are exactly
`[tmp.min() - 1, tmp.max() + 1]`; `on_update_plot` then returns normally
carrying that slider. -/
theorem clipdist_bounds_update_ordered (st : ViewerState) (d : Volume) (u : ℚ)
    (mc : Volume → Except Unit Nat) (v : Nat × Nat × Nat)
    (vs : List (Nat × Nat × Nat))
    (htog : st.toggle_plane = true)
    (hsel : voxels_above d st.threshold = v :: vs)
    (hinv : slider_inv st.clipdist) :
    ∃ sl1 sl2 : RangeSlider,
      ((st.clipdist.min < listMax (clip_projections st d u) + 1 ∧
          set_max st.clipdist (listMax (clip_projections st d u) + 1) = .ok sl1 ∧
          set_min sl1 (listMin (clip_projections st d u) - 1) = .ok sl2) ∨
        (¬ st.clipdist.min < listMax (clip_projections st d u) + 1 ∧
          set_min st.clipdist (listMin (clip_projections st d u) - 1) = .ok sl1 ∧
          set_max sl1 (listMax (clip_projections st d u) + 1) = .ok sl2)) ∧
      slider_inv sl1 ∧ slider_inv sl2 ∧
      sl2.min = listMin (clip_projections st d u) - 1 ∧
      sl2.max = listMax (clip_projections st d u) + 1 ∧
      update_clipdist st.clipdist (listMin (clip_projections st d u) - 1)
        (listMax (clip_projections st d u) + 1) = .ok sl2 ∧
      ∃ st', on_update_plot st d u mc = .ok st' ∧ st'.clipdist = sl2 := by
  obtain ⟨h1, h2, h3⟩ := hinv
  have hproj : clip_projections st d u =
      proj1 (clip_u_fix st.clipx u).1 st.clipy st.clipz (clip_u_fix st.clipx u).2 v ::
        vs.map (proj1 (clip_u_fix st.clipx u).1 st.clipy st.clipz (clip_u_fix st.clipx u).2) := by
    rw [clip_projections, hsel, List.map_cons]
  have hmM : listMin (clip_projections st d u) ≤ listMax (clip_projections st d u) := by
    rw [hproj]; exact listMin_le_listMax _ _
  set m := listMin (clip_projections st d u) - 1 with hm
  set M := listMax (clip_projections st d u) + 1 with hM
  have hmM' : m ≤ M := by rw [hm, hM]; linarith
  by_cases hc : st.clipdist.min < M
  · -- the new max exceeds the old min: assign max first, then min
    have hset1 : set_max st.clipdist M =
        .ok ⟨st.clipdist.min, M, min st.clipdist.lo M, min st.clipdist.hi M⟩ := by
      rw [set_max, if_neg (not_lt.mpr hc.le)]
    have hset2 : set_min ⟨st.clipdist.min, M, min st.clipdist.lo M, min st.clipdist.hi M⟩ m =
        .ok ⟨m, M, max (min st.clipdist.lo M) m, max (min st.clipdist.hi M) m⟩ := by
      rw [set_min, if_neg (not_lt.mpr hmM')]
    have hupd : update_clipdist st.clipdist m M =
        .ok ⟨m, M, max (min st.clipdist.lo M) m, max (min st.clipdist.hi M) m⟩ := by
      rw [update_clipdist, if_pos hc, hset1]
      exact hset2
    refine ⟨⟨st.clipdist.min, M, min st.clipdist.lo M, min st.clipdist.hi M⟩,
      ⟨m, M, max (min st.clipdist.lo M) m, max (min st.clipdist.hi M) m⟩,
      Or.inl ⟨hc, hset1, hset2⟩, ?_, ?_, rfl, rfl, hupd, ?_⟩
    · exact ⟨le_min h1 hc.le, min_le_min h2 le_rfl, min_le_right _ _⟩
    · refine ⟨le_max_right _ _, max_le_max (min_le_min h2 le_rfl) le_rfl, ?_⟩
      exact max_le (min_le_right _ _) hmM'
    · simp only [on_update_plot, htog, if_true, hsel]
      rw [← hm, ← hM, hupd]
      dsimp only
      cases hmc : mc (mask_abs d (clip_u_fix st.clipx u).1 st.clipy st.clipz
          (clip_u_fix st.clipx u).2
          (max (min st.clipdist.lo M) m) (max (min st.clipdist.hi M) m)) with
      | ok mm => exact ⟨_, rfl, rfl⟩
      | error e => exact ⟨_, rfl, rfl⟩
  · -- the new max is at most the old min: assign min first, then max
    have hMm : M ≤ st.clipdist.min := not_lt.mp hc
    have hmmax : m ≤ st.clipdist.max := by linarith
    have hset1 : set_min st.clipdist m =
        .ok ⟨m, st.clipdist.max, max st.clipdist.lo m, max st.clipdist.hi m⟩ := by
      rw [set_min, if_neg (not_lt.mpr hmmax)]
    have hset2 : set_max ⟨m, st.clipdist.max, max st.clipdist.lo m, max st.clipdist.hi m⟩ M =
        .ok ⟨m, M, min (max st.clipdist.lo m) M, min (max st.clipdist.hi m) M⟩ := by
      rw [set_max, if_neg (not_lt.mpr hmM')]
    have hupd : update_clipdist st.clipdist m M =
        .ok ⟨m, M, min (max st.clipdist.lo m) M, min (max st.clipdist.hi m) M⟩ := by
      rw [update_clipdist, if_neg hc, hset1]
      exact hset2
    refine ⟨⟨m, st.clipdist.max, max st.clipdist.lo m, max st.clipdist.hi m⟩,
      ⟨m, M, min (max st.clipdist.lo m) M, min (max st.clipdist.hi m) M⟩,
      Or.inr ⟨hc, hset1, hset2⟩, ?_, ?_, rfl, rfl, hupd, ?_⟩
    · exact ⟨le_max_right _ _, max_le_max h2 le_rfl, max_le h3 hmmax⟩
    · refine ⟨le_min (le_max_right _ _) hmM', min_le_min (max_le_max h2 le_rfl) le_rfl, ?_⟩
      exact min_le_right _ _
    · simp only [on_update_plot, htog, if_true, hsel]
      rw [← hm, ← hM, hupd]
      dsimp only
      cases hmc : mc (mask_abs d (clip_u_fix st.clipx u).1 st.clipy st.clipz
          (clip_u_fix st.clipx u).2
          (min (max st.clipdist.lo m) M) (min (max st.clipdist.hi m) M)) with
      | ok mm => exact ⟨_, rfl, rfl⟩
      | error e => exact ⟨_, rfl, rfl⟩

/-- Witness for C8 at a concrete 1-voxel volume, threshold 1, clip vector
`(1, 0, 0)` of exact norm 1: the single projection is 0, so the slider
ends with bounds `[-1, 1]` and `on_update_plot` returns normally. -/
theorem clipdist_bounds_update_ordered_witness :
    ∃ st', on_update_plot ⟨true, 1, 0, 0, ⟨0, 100, 0, 100⟩, 1, none⟩ [[[1]]] 1
        (fun _ => .error ()) = .ok st' ∧
      st'.clipdist.min = -1 ∧ st'.clipdist.max = 1 := by
  obtain ⟨sl1, sl2, hsteps, hinv1, hinv2, hmin, hmax, hupd, st', hok, hcd⟩ :=
    clipdist_bounds_update_ordered ⟨true, 1, 0, 0, ⟨0, 100, 0, 100⟩, 1, none⟩ [[[1]]] 1
      (fun _ => .error ()) (0, 0, 0) [] rfl (by decide)
      ⟨by norm_num, by norm_num, by norm_num⟩
  have hsel0 : voxels_above [[[1]]] 1 = [(0, 0, 0)] := by decide
  have hfix : clip_u_fix 1 1 = (1, 1) := by
    rw [clip_u_fix, if_neg]
    norm_num [np_atol]
  have hlo : listMin (clip_projections ⟨true, 1, 0, 0, ⟨0, 100, 0, 100⟩, 1, none⟩
      [[[1]]] 1) = 0 := by
    rw [clip_projections]
    dsimp only
    rw [hsel0, hfix]
    simp [listMin, proj1]
  have hhi : listMax (clip_projections ⟨true, 1, 0, 0, ⟨0, 100, 0, 100⟩, 1, none⟩
      [[[1]]] 1) = 0 := by
    rw [clip_projections]
    dsimp only
    rw [hsel0, hfix]
    simp [listMax, proj1]
  refine ⟨st', hok, ?_, ?_⟩
  · rw [hcd, hmin, hlo]; norm_num
  · rw [hcd, hmax, hhi]; norm_num

/-- The head of `r` does not satisfy `p` (or `r` is empty). -/
@[reducible] def headNot (p : Char → Bool) : List Char → Prop
| [] => True
| c :: _ => p c = false

/-- `spanChars` splits a list whose prefix satisfies `p` and whose
remainder starts with a failing character exactly at that point. -/
lemma spanChars_append (p : Char → Bool) (ds r : List Char)
    (hds : ds.all p = true) (hr : headNot p r) :
    spanChars p (ds ++ r) = (ds, r) := by
  induction ds with
  | nil =>
    cases r with
    | nil => rfl
    | cons c t =>
      have hc : p c = false := hr
      simp [spanChars, hc]
  | cons c t ih =>
    rw [List.all_cons, Bool.and_eq_true] at hds
    simp [spanChars, hds.1, ih hds.2]

/-- A digit character is a digit. -/
lemma digitChar_isDigit (n : Nat) (h : n < 10) :
    Char.isDigit (digitChar n) = true := by
  interval_cases n <;> decide

/-- Reading back a digit character yields the digit. -/
lemma digitVal_digitChar (n : Nat) (h : n < 10) :
    digitVal (digitChar n) = n := by
  interval_cases n <;> decide

/-- With enough fuel, the decimal rendering consists of digits, is
non-empty, and parses back to the rendered number. -/
lemma natReprAux_spec : ∀ fuel n, n < fuel →
    (natReprAux fuel n).all Char.isDigit = true ∧ natReprAux fuel n ≠ [] ∧
    parseNatVal (natReprAux fuel n) = n := by
  intro fuel
  induction fuel with
  | zero => intro n hn; omega
  | succ f ih =>
    intro n hn
    by_cases h10 : n < 10
    · unfold natReprAux
      rw [if_pos h10]
      refine ⟨by simp [digitChar_isDigit n h10], by simp, ?_⟩
      simp [parseNatVal, digitVal_digitChar n h10]
    · have hdiv : n / 10 < f := by omega
      obtain ⟨ha, hne, hval⟩ := ih (n / 10) hdiv
      unfold natReprAux
      rw [if_neg h10]
      have hd : n % 10 < 10 := Nat.mod_lt _ (by norm_num)
      refine ⟨?_, by simp, ?_⟩
      · rw [List.all_append, ha]
        simp [digitChar_isDigit _ hd]
      · rw [parseNatVal, List.foldl_append]
        rw [parseNatVal] at hval
        simp only [List.foldl_cons, List.foldl_nil, hval,
          digitVal_digitChar _ hd]
        omega

/-- The decimal rendering of a natural number: all digits, non-empty,
parses back to the number. -/
lemma natRepr_spec (n : Nat) :
    (natRepr n).all Char.isDigit = true ∧ natRepr n ≠ [] ∧
    parseNatVal (natRepr n) = n :=
  natReprAux_spec (n + 1) n (by omega)

/-- The rendering of an integer starts with `-` or a digit. -/
lemma pyIntRepr_head (z : Int) :
    ∃ c rest, pyIntRepr z = c :: rest ∧ (c = '-' ∨ Char.isDigit c = true) := by
  obtain ⟨ha, hne, _⟩ := natRepr_spec z.natAbs
  by_cases hz : z < 0
  · exact ⟨'-', natRepr z.natAbs, by rw [pyIntRepr, if_pos hz], Or.inl rfl⟩
  · cases hrep : natRepr z.natAbs with
    | nil => exact absurd hrep hne
    | cons c t =>
      refine ⟨c, t, by rw [pyIntRepr, if_neg hz, hrep], Or.inr ?_⟩
      rw [hrep, List.all_cons, Bool.and_eq_true] at ha
      exact ha.1

/-- `takeInt` consumes exactly the rendered integer when the remainder
does not continue with a digit. -/
lemma takeInt_pyIntRepr (z : Int) (r : List Char)
    (hr : headNot Char.isDigit r) :
    takeInt (pyIntRepr z ++ r) = some (z, r) := by
  obtain ⟨ha, hne, hval⟩ := natRepr_spec z.natAbs
  have hspan : spanChars Char.isDigit (natRepr z.natAbs ++ r) = (natRepr z.natAbs, r) :=
    spanChars_append _ _ _ ha hr
  by_cases hz : z < 0
  · rw [pyIntRepr, if_pos hz, List.cons_append, takeInt, if_pos rfl, hspan]
    cases hrep : natRepr z.natAbs with
    | nil => exact absurd hrep hne
    | cons c t =>
      rw [hrep] at hval
      show some (-(parseNatVal (c :: t) : Int), r) = some (z, r)
      rw [hval]
      have hzz : -(z.natAbs : Int) = z := by omega
      rw [hzz]
  · cases hrep : natRepr z.natAbs with
    | nil => exact absurd hrep hne
    | cons c t =>
      have hcdig : Char.isDigit c = true := by
        rw [hrep, List.all_cons, Bool.and_eq_true] at ha
        exact ha.1
      have hcne : ¬ c = '-' := by
        intro h
        rw [h] at hcdig
        exact absurd hcdig (by decide)
      rw [pyIntRepr, if_neg hz, hrep, List.cons_append, takeInt, if_neg hcne,
        ← List.cons_append, ← hrep, hspan]
      rw [hrep] at hval
      rw [hrep]
      show some ((parseNatVal (c :: t) : Int), r) = some (z, r)
      rw [hval]
      have hzz : (z.natAbs : Int) = z := by omega
      rw [hzz]

/-- The rendering of an integer is non-empty. -/
lemma pyIntRepr_ne_nil (z : Int) : pyIntRepr z ≠ [] := by
  obtain ⟨c, rest, h, _⟩ := pyIntRepr_head z
  rw [h]
  simp

/-- The element rendering of a non-empty list is non-empty. -/
lemma elemsRepr_ne_nil (z : Int) (t : List Int) : elemsRepr (z :: t) ≠ [] := by
  cases t with
  | nil =>
    show pyIntRepr z ≠ []
    exact pyIntRepr_ne_nil z
  | cons y t2 =>
    show pyIntRepr z ++ ',' :: ' ' :: elemsRepr (y :: t2) ≠ []
    simp

/-- The element rendering has at least one character per element. -/
lemma elemsRepr_length (l : List Int) : l.length ≤ (elemsRepr l).length := by
  induction l with
  | nil => simp [elemsRepr]
  | cons z t ih =>
    cases t with
    | nil =>
      show 1 ≤ (pyIntRepr z).length
      exact List.length_pos.mpr (pyIntRepr_ne_nil z)
    | cons y t2 =>
      show (y :: t2).length + 1 ≤ (pyIntRepr z ++ ',' :: ' ' :: elemsRepr (y :: t2)).length
      have h1 : 1 ≤ (pyIntRepr z).length := List.length_pos.mpr (pyIntRepr_ne_nil z)
      have h2 := ih
      simp only [List.length_append, List.length_cons] at h2 ⊢
      omega

/-- With fuel at least the number of elements, the element parser reads
back exactly the rendered non-empty list followed by the closing bracket. -/
lemma parseElemsAux_elemsRepr : ∀ (l : List Int) (fuel : Nat), l ≠ [] →
    l.length ≤ fuel → parseElemsAux fuel (elemsRepr l ++ [']']) = some l := by
  intro l
  induction l with
  | nil => intro fuel h _; exact absurd rfl h
  | cons z t ih =>
    intro fuel _ hf
    cases fuel with
    | zero => simp at hf
    | succ f =>
      cases t with
      | nil =>
        show parseElemsAux (f + 1) (pyIntRepr z ++ [']']) = some [z]
        rw [parseElemsAux,
          takeInt_pyIntRepr z [']'] (show Char.isDigit ']' = false by decide)]
        dsimp only
        rw [if_pos rfl]
      | cons y t2 =>
        have hrepr : elemsRepr (z :: y :: t2) ++ [']'] =
            pyIntRepr z ++ (',' :: ' ' :: (elemsRepr (y :: t2) ++ [']'])) := by
          show (pyIntRepr z ++ ',' :: ' ' :: elemsRepr (y :: t2)) ++ [']'] = _
          simp
        rw [hrepr, parseElemsAux,
          takeInt_pyIntRepr z (',' :: ' ' :: (elemsRepr (y :: t2) ++ [']']))
            (show Char.isDigit ',' = false by decide)]
        dsimp only
        have hne2 : ¬ (',' :: ' ' :: (elemsRepr (y :: t2) ++ [']'])) = [']'] := by simp
        rw [if_neg hne2]
        have hcs : (',' = ',' ∧ ' ' = ' ') := ⟨rfl, rfl⟩
        rw [if_pos hcs, ih f (by simp) (by simpa using Nat.le_of_succ_le_succ hf)]

/-- The list parser reads back exactly the rendered list literal. -/
lemma parseIntList_pyListRepr (l : List Int) :
    parseIntList (pyListRepr l) = some l := by
  cases l with
  | nil =>
    show parseIntList ['[', ']'] = some []
    rw [parseIntList, if_pos rfl, if_pos rfl]
  | cons z t =>
    show parseIntList ('[' :: (elemsRepr (z :: t) ++ [']'])) = some (z :: t)
    rw [parseIntList, if_pos rfl]
    have hne : ¬ (elemsRepr (z :: t) ++ [']'] = [']']) := by
      intro h
      have := congrArg List.length h
      simp at this
      exact elemsRepr_ne_nil z t this
    rw [if_neg hne]
    refine parseElemsAux_elemsRepr (z :: t) _ (by simp) ?_
    have h1 := elemsRepr_length (z :: t)
    simp only [List.length_append, List.length_cons] at h1 ⊢
    omega

/-- Rebuilding a string from its characters gives the string back. -/
lemma string_mk_data (s : String) : String.mk s.data = s := rfl

/-- Splitting recovers the key and the value of a generated line when the
key contains no colon. -/
lemma splitColonSpace_append (kd v : List Char) (hk : ∀ c ∈ kd, c ≠ ':') :
    splitColonSpace (kd ++ ':' :: ' ' :: v) = some (kd, v) := by
  induction kd with
  | nil =>
    show splitColonSpace (':' :: ' ' :: v) = some ([], v)
    rw [splitColonSpace.eq_def]
    dsimp only
    rw [if_pos rfl, if_pos rfl]
  | cons c t ih =>
    have hc : ¬ c = ':' := hk c (List.mem_cons_self c t)
    show splitColonSpace (c :: (t ++ ':' :: ' ' :: v)) = some (c :: t, v)
    rw [splitColonSpace.eq_def]
    dsimp only
    rw [if_neg hc, ih (fun x hx => hk x (List.mem_cons_of_mem c hx))]

/-- The value parser reads back exactly the value rendered for every
supported config value, yielding its expected re-parse. -/
lemma parseValue_formatValue (v : PyVal) (hv : SupportedRTB v = true) :
    parseValue (formatValueChars v) = some (expectedParse v) := by
  cases v with
  | str s =>
    have hall : s.data.all (fun c => c != '"') = true := hv
    show parseValue ('"' :: (s.data ++ ['"'])) = some (.pstr s)
    rw [parseValue, if_pos rfl,
      spanChars_append _ s.data ['"'] hall (show ('"' != '"') = false by decide)]
    dsimp only
    rw [if_pos rfl, string_mk_data]
  | tup l =>
    cases l with
    | nil => exact absurd hv (by decide)
    | cons z t =>
      show parseValue (pyListRepr (z :: t)) = some (.plist (z :: t))
      show parseValue ('[' :: (elemsRepr (z :: t) ++ [']'])) = some (.plist (z :: t))
      rw [parseValue, if_neg (by decide), if_pos rfl,
        show ('[' :: (elemsRepr (z :: t) ++ [']'])) = pyListRepr (z :: t) from rfl,
        parseIntList_pyListRepr (z :: t)]
  | npArr a =>
    cases a with
    | one l =>
      show parseValue (pyListRepr l) = some (.plist l)
      cases l with
      | nil =>
        show parseValue ['[', ']'] = some (.plist [])
        decide
      | cons z t =>
        show parseValue ('[' :: (elemsRepr (z :: t) ++ [']'])) = some (.plist (z :: t))
        rw [parseValue, if_neg (by decide), if_pos rfl,
          show ('[' :: (elemsRepr (z :: t) ++ [']'])) = pyListRepr (z :: t) from rfl,
          parseIntList_pyListRepr (z :: t)]
    | two ll => simp [SupportedRTB] at hv
  | list l =>
    cases l with
    | nil => exact absurd hv (by decide)
    | cons z t =>
      show parseValue ('[' :: (elemsRepr (z :: t) ++ [']'])) = some (.plist (z :: t))
      rw [parseValue, if_neg (by decide), if_pos rfl,
        show ('[' :: (elemsRepr (z :: t) ++ [']'])) = pyListRepr (z :: t) from rfl,
        parseIntList_pyListRepr (z :: t)]
  | int z =>
    obtain ⟨c, rest, hrepr, hc⟩ := pyIntRepr_head z
    have hcq : ¬ c = '"' := by
      rcases hc with h | h
      · rw [h]; decide
      · intro he
        rw [he] at h
        exact absurd h (by decide)
    have hcb : ¬ c = '[' := by
      rcases hc with h | h
      · rw [h]; decide
      · intro he
        rw [he] at h
        exact absurd h (by decide)
    have hcn : ¬ (c :: rest = noneChars) := by
      intro he
      have : c = 'N' := by
        have := congrArg (fun l => l.head?) he
        simpa [noneChars] using this
      rcases hc with h | h
      · rw [this] at h; exact absurd h (by decide)
      · rw [this] at h; exact absurd h (by decide)
    have hct : ¬ (c :: rest = trueChars) := by
      intro he
      have : c = 'T' := by
        have := congrArg (fun l => l.head?) he
        simpa [trueChars] using this
      rcases hc with h | h
      · rw [this] at h; exact absurd h (by decide)
      · rw [this] at h; exact absurd h (by decide)
    have hcf : ¬ (c :: rest = falseChars) := by
      intro he
      have : c = 'F' := by
        have := congrArg (fun l => l.head?) he
        simpa [falseChars] using this
      rcases hc with h | h
      · rw [this] at h; exact absurd h (by decide)
      · rw [this] at h; exact absurd h (by decide)
    have htake : takeInt (c :: rest) = some (z, []) := by
      rw [← hrepr, ← List.append_nil (pyIntRepr z)]
      exact takeInt_pyIntRepr z [] trivial
    show parseValue (pyIntRepr z) = some (.pint z)
    rw [hrepr, parseValue, if_neg hcq, if_neg hcb, if_neg hcn, if_neg hct,
      if_neg hcf, htake]
  | bool b => cases b <;> decide
  | pynone => decide

/-- C5 counterexample: a string value containing a double quote breaks
the round trip.  Writing `"a\"b"` produces the line `k: "a"b"`, in which
the quoted token ends at the first closing quote with trailing
characters left over, so re-parsing the generated line fails — the value
read back is not the input. -/
theorem round_trip_fails_on_quoted_string :
    parseLine (formatLine "k" (.str "a\"b")) = none := by decide

/-- C5 (amended): for every parameter name without a colon and every
supported value — a string with no embedded double quote, a non-empty
integer list or tuple, a one-dimensional integer array, an int, bool or
None scalar — writing the parameter with `create_yaml_file` and
re-parsing the generated `key: value` line yields the key and a value
equal to the input, modulo the list/tuple/1-D-array distinction, which
is intentionally lost (all three read back as a plain list).  A string
with an embedded quote, or a multi-dimensional array, breaks the round
trip. -/
theorem create_yaml_round_trip (k : String) (v : PyVal)
    (hk : ∀ c ∈ k.data, c ≠ ':') (hv : SupportedRTB v = true) :
    parseLine (formatLine k v) = some (k, expectedParse v) := by
  show parseLine (String.mk (k.data ++ ':' :: ' ' :: formatValueChars v)) =
    some (k, expectedParse v)
  rw [parseLine]
  show (match splitColonSpace (k.data ++ ':' :: ' ' :: formatValueChars v) with
    | some kv =>
      match parseValue kv.2 with
      | some p => some (String.mk kv.1, p)
      | none => none
    | none => none) = some (k, expectedParse v)
  rw [splitColonSpace_append k.data (formatValueChars v) hk]
  dsimp only
  rw [parseValue_formatValue v hv]

/-- Witness for C5 at the key `energy` and a non-empty tuple value,
which reads back as the corresponding plain list. -/
theorem create_yaml_round_trip_witness :
    parseLine (formatLine "energy" (.tup [1, 2])) =
      some ("energy", .plist [1, 2]) := by
  have h := create_yaml_round_trip "energy" (.tup [1, 2]) (by decide) (by decide)
  exact h

/-- C6 counterexample: a rank-two numeric array is not flattened to a
single list literal: `list(v)` is a list of sub-arrays, so the line
rendered for `[[1, 2], [3, 4]]` is `k: [array([1, 2]), array([3, 4])]`,
not `k: [1, 2, 3, 4]`. -/
theorem multidim_array_not_flattened :
    formatLine "k" (.npArr (.two [[1, 2], [3, 4]])) =
      "k: [array([1, 2]), array([3, 4])]" ∧
    formatLine "k" (.npArr (.two [[1, 2], [3, 4]])) ≠ "k: [1, 2, 3, 4]" := by
  constructor
  · decide
  · decide

/-- C6 (amended): `create_yaml_file` serializes each value with
type-directed formatting — a string is written quoted; a non-empty list
as a bracketed list and an empty list as the literal marker `None`; a
tuple is rendered identically to the corresponding list (empty tuple
also as `None`); a one-dimensional numeric array yields a flat list
literal, but a multi-dimensional array is rendered as a bracketed list
of sub-array reprs (`array([...])`), not flattened. -/
theorem create_yaml_type_directed :
    (∀ (k : String) (s : String), formatLine k (.str s) =
      String.mk (k.data ++ ':' :: ' ' :: '"' :: (s.data ++ ['"']))) ∧
    (∀ (k : String) (z : Int) (l : List Int), formatLine k (.list (z :: l)) =
      String.mk (k.data ++ ':' :: ' ' :: pyListRepr (z :: l))) ∧
    (∀ k : String, formatLine k (.list []) =
      String.mk (k.data ++ ':' :: ' ' :: noneChars)) ∧
    (∀ (k : String) (l : List Int),
      formatLine k (.tup l) = formatLine k (.list l)) ∧
    (∀ (k : String) (l : List Int), formatLine k (.npArr (.one l)) =
      String.mk (k.data ++ ':' :: ' ' :: pyListRepr l)) ∧
    (∀ (k : String) (ll : List (List Int)), formatLine k (.npArr (.two ll)) =
      String.mk (k.data ++ ':' :: ' ' :: '[' :: (subarraysRepr ll ++ [']']))) := by
  refine ⟨fun k s => rfl, fun k z l => rfl, fun k => rfl,
    fun k l => ?_, fun k l => rfl, fun k ll => rfl⟩
  cases l with
  | nil => rfl
  | cons z t => rfl
